import Mathlib

/-!
# camera_transformer_node

A shallow embedding of `camera_transformer/src/camera_transformer_node.cpp`:
the node that subscribes to image topics, rotates every image by 180 degrees
and republishes it.

Conventions of the embedding.

* A `cv::Mat` of type `CV_8UC3` (the only matrix type the node handles, since
  it always asks cv_bridge for `bgr8`) is a grid of pixels, `rows` lists of
  `cols` pixels, each pixel three channel bytes in storage order.
* Calls into OpenCV, cv_bridge and roscpp are library calls. `cv::flip`,
  `cv::cvtColor` and `CvImage::toImageMsg` are given by their documented
  behaviour; `cv_bridge::toCvShare` is a parameter of the model.
* Undefined behaviour of the C++ program (dereferencing an empty
  `boost::optional`, indexing a vector out of range) is an explicit outcome.
-/

namespace CameraTransformer

/-! ## Pixel buffers -/

/-- One pixel of a `CV_8UC3` matrix: its three channel bytes in storage order. -/
structure Vec3b where
  c0 : Nat
  c1 : Nat
  c2 : Nat
deriving DecidableEq, Repr

/-- A `cv::Mat` of type `CV_8UC3`: `rows`, `cols` and the pixel rows. -/
structure Mat where
  rows : Nat
  cols : Nat
  data : List (List Vec3b)
deriving DecidableEq, Repr

/-- Number of channels of the matrix (`cv::Mat::channels`); every matrix of the
node is `CV_8UC3`. -/
def Mat.channels (_m : Mat) : Nat := 3

/-- The pixel grid has `rows` rows of `cols` pixels each. -/
def Mat.WellFormed (m : Mat) : Prop :=
  m.data.length = m.rows ∧ ∀ row ∈ m.data, row.length = m.cols

instance (m : Mat) : Decidable m.WellFormed := by
  unfold Mat.WellFormed
  infer_instance

/-- Pixel access `m.at<Vec3b>(r, c)`; `none` outside the stored grid. -/
def Mat.at? (m : Mat) (r c : Nat) : Option Vec3b :=
  match m.data[r]? with
  | none => none
  | some row => row[c]?

/-- Modelled from the spec: the row pass of OpenCV's `cv::flip` (library code,
not part of this repository); it reverses the order of the rows. -/
def flipVert (src : Mat) : Mat :=
  { src with data := src.data.reverse }

/-- Modelled from the spec: the column pass of OpenCV's `cv::flip` (library
code, not part of this repository); it reverses the pixels of every row. -/
def flipHoriz (src : Mat) : Mat :=
  { src with data := src.data.map List.reverse }

/-- Modelled from the spec: OpenCV's `cv::flip(src, dst, flipCode)` (library
code, not part of this repository). `flipCode = 0` flips around the x-axis
(row order reversed), a positive code flips around the y-axis (column order
reversed) and a negative code does both, which the spec describes as
"reversing both row and column order of pixels". -/
def flip (src : Mat) (flipCode : Int) : Mat :=
  let dst := if flipCode ≤ 0 then flipVert src else flipHoriz src
  if flipCode < 0 then flipHoriz dst else dst

/-- Modelled from the spec: OpenCV's `cv::cvtColor(src, dst, CV_BGR2RGB)` on one
pixel (library code, not part of this repository): the first and the third
channel change places. -/
def Vec3b.swapRB (p : Vec3b) : Vec3b :=
  { c0 := p.c2, c1 := p.c1, c2 := p.c0 }

/-- Modelled from the spec: OpenCV's `cv::cvtColor(src, dst, CV_BGR2RGB)`
(library code, not part of this repository): a new matrix of the same size
whose pixels are those of `src` with the channel order reversed. -/
def cvtColorBGR2RGB (src : Mat) : Mat :=
  { src with data := src.data.map (List.map Vec3b.swapRB) }

/-! ## Messages -/

/-- A `ros::Time` stamp. -/
structure Time where
  sec : Nat
  nsec : Nat
deriving DecidableEq, Repr

/-- A `std_msgs::Header`. -/
structure Header where
  seq : Nat
  stamp : Time
  frame_id : String
deriving DecidableEq, Repr

/-- A `sensor_msgs::Image`: header, size, encoding name, row length in bytes and
the pixel bytes, row after row. -/
structure Image where
  header : Header
  height : Nat
  width : Nat
  encoding : String
  is_bigendian : Bool
  step : Nat
  data : List Nat
deriving DecidableEq, Repr

/-- The constant `sensor_msgs::image_encodings::BGR8`. -/
def BGR8 : String := "bgr8"

/-- The constant `sensor_msgs::image_encodings::RGB8`. -/
def RGB8 : String := "rgb8"

/-- A default constructed `std_msgs::Header` ("empty header"). -/
def Header.empty : Header :=
  { seq := 0, stamp := { sec := 0, nsec := 0 }, frame_id := "" }

/-- The three bytes a pixel occupies in a message. -/
def Vec3b.bytes (p : Vec3b) : List Nat := [p.c0, p.c1, p.c2]

/-- The bytes of a matrix, row after row, as `toImageMsg` copies them. -/
def Mat.bytes (m : Mat) : List Nat :=
  (m.data.map (fun row => row.flatMap Vec3b.bytes)).flatten

/-- Pixel `(r, c)` of a three-channel 8-bit image message, read from its bytes at
offset `r * step + 3 * c`. -/
def Image.pixel? (img : Image) (r c : Nat) : Option Vec3b :=
  if r < img.height ∧ c < img.width then
    match img.data[r * img.step + 3 * c]?, img.data[r * img.step + 3 * c + 1]?,
        img.data[r * img.step + 3 * c + 2]? with
    | some a, some b, some d => some { c0 := a, c1 := b, c2 := d }
    | _, _, _ => none
  else none

/-- A `cv_bridge::CvImage`: header, encoding name and matrix. -/
structure CvImage where
  header : Header
  encoding : String
  image : Mat
deriving DecidableEq, Repr

/-- Modelled from the spec: `cv_bridge::CvImage::toImageMsg` (library code, not
part of this repository): the message takes the header and the encoding of the
bridge object, the size of its matrix and a copy of the matrix bytes. -/
def CvImage.toImageMsg (cv : CvImage) : Image :=
  { header := cv.header
    height := cv.image.rows
    width := cv.image.cols
    encoding := cv.encoding
    is_bigendian := false
    step := cv.image.cols * 3
    data := cv.image.bytes }

/-- The library call `cv_bridge::toCvShare(msg, encoding)`: either the matrix of
the message in the requested encoding, or the text of the
`cv_bridge::Exception` it throws. The model takes it as a parameter. -/
abbrev CvBridge := Image → String → Except String Mat

/-- Reads pixels off a byte row, three bytes at a time. -/
def pixelsOfBytes : List Nat → List Vec3b
  | a :: b :: c :: rest => { c0 := a, c1 := b, c2 := c } :: pixelsOfBytes rest
  | _ => []

/-- The matrix view of the bytes of a three-channel message. -/
def matFromImage (source : Image) : Mat :=
  { rows := source.height
    cols := source.width
    data := (List.range source.height).map (fun r =>
      pixelsOfBytes ((source.data.drop (r * source.step)).take (3 * source.width))) }

/-- A concrete decoder for evaluating the model on examples: a message that
already has the requested encoding and consistent sizes is viewed as a matrix,
every other message is rejected. cv_bridge converts further encodings; the
theorems below hold for every decoder. -/
def sampleBridge : CvBridge := fun source encoding =>
  if source.encoding ≠ encoding then
    .error ("Unsupported conversion from [" ++ source.encoding ++ "] to [" ++ encoding ++ "]")
  else if source.step < source.width * 3 ∨ source.height * source.step ≠ source.data.length then
    .error "Image is wrongly formed"
  else .ok (matFromImage source)

/-! ## The node -/

/-- The struct `CameraTransform`: input topic and output topic of one mapping. -/
structure CameraTransform where
  topic : String
  transformed_topic : String
deriving DecidableEq, Repr

/-- A `ros::Publisher` as returned by `advertise`: topic and queue size. -/
structure Publisher where
  topic : String
  queue_size : Nat
deriving DecidableEq, Repr

/-- A `ros::Subscriber` as returned by `subscribe`: topic, queue size and the
callback, which is `transform_image` bound to the index `callback`. -/
structure Subscriber where
  topic : String
  queue_size : Nat
  callback : Nat
deriving DecidableEq, Repr

/-- The members of `CameraTransformerNode`. A callback
`boost::bind(&CameraTransformerNode::transform_image, this, i, _1)` is
represented by its bound index `i`. -/
structure CameraTransformerNode where
  _publishers : List Publisher
  _subscribers : List Subscriber
  _subscriber_callbacks : List Nat
  _transforms : List CameraTransform
deriving DecidableEq, Repr

/-- What the process has done to the transport: the topics it has advertised
and the topics it has subscribed to through the node handle, in call order.
Both calls are taken to succeed; the transport is an external collaborator. -/
structure World where
  advertised : List String
  subscribed : List String
deriving DecidableEq, Repr

/-- The outside before the process has done anything. -/
def World.initial : World :=
  { advertised := [], subscribed := [] }

/-- One iteration of the constructor loop (lines 59-75) for index `i`; `none`
when a vector is indexed out of range. -/
def constructorStep (st : World × CameraTransformerNode) (i : Nat) :
    Option (World × CameraTransformerNode) :=
  let (w, node) := st
  match node._transforms[i]? with
  | none => none
  | some transform =>
    let publisher : Publisher := { topic := transform.transformed_topic, queue_size := 5 }
    let w := { w with advertised := w.advertised ++ [transform.transformed_topic] }
    let node := { node with _publishers := node._publishers ++ [publisher] }
    let callback := i
    let node := { node with _subscriber_callbacks := node._subscriber_callbacks ++ [callback] }
    match node._subscriber_callbacks[i]? with
    | none => none
    | some cb =>
      let subscriber : Subscriber := { topic := transform.topic, queue_size := 10, callback := cb }
      let w := { w with subscribed := w.subscribed ++ [transform.topic] }
      let node := { node with _subscribers := node._subscribers ++ [subscriber] }
      some (w, node)

/-- The constructor `CameraTransformerNode(nh, transforms)`: the members start
empty except `_transforms`, then the loop runs for `i = 0, ..., size - 1`.
(The loop counter is an `int`; registries come from the command line, whose
length `argc` is an `int` too, so the counter does not overflow.) -/
def CameraTransformerNode.new (w : World) (transforms : List CameraTransform) :
    Option (World × CameraTransformerNode) :=
  let node : CameraTransformerNode :=
    { _publishers := [], _subscribers := [], _subscriber_callbacks := [],
      _transforms := transforms }
  (List.range node._transforms.length).foldlM constructorStep (w, node)

/-- What `getImageFromMessage` does: the lines it logs with `ROS_ERROR` and the
optional matrix it returns. -/
def getImageFromMessage (toCvShare : CvBridge) (image_msg : Image) :
    List String × Option Mat :=
  match toCvShare image_msg BGR8 with
  | .error e => (["cv_bridge exception: " ++ e], none)
  | .ok image =>
    let rgb := cvtColorBGR2RGB image
    ([], some rgb)

/-- The function `createImageMessage`: an empty header receives `seq` and
`stamp` of the inbound message and is packed with the matrix under `RGB8`. -/
def createImageMessage (image_msg : Image) (transformed : Mat) : Image :=
  let header : Header := Header.empty
  let header := { header with seq := image_msg.header.seq }
  let header := { header with stamp := image_msg.header.stamp }
  let transformed_bridge : CvImage :=
    { header := header, encoding := RGB8, image := transformed }
  transformed_bridge.toImageMsg

/-- A call of `publish` on `_publishers[publisher]`, which advertises `topic`. -/
structure Publication where
  publisher : Nat
  topic : String
  msg : Image
deriving DecidableEq, Repr

/-- How a callback ends: it returns, having logged lines and published
messages, or it runs into undefined behaviour after having logged lines. -/
inductive Outcome where
  | returned (log : List String) (published : List Publication)
  | undefinedBehaviour (log : List String)
deriving DecidableEq, Repr

/-- The callback `transform_image(i, image_msg)`. `getImageFromMessage` catches
`cv_bridge::Exception` itself, so the `catch` clause of `transform_image` is
never entered and the optional is dereferenced whatever it holds. -/
def transform_image (toCvShare : CvBridge) (node : CameraTransformerNode) (i : Nat)
    (image_msg : Image) : Outcome :=
  match node._transforms[i]? with
  | none => .undefinedBehaviour []
  | some _transform =>
    let (log, image_op) := getImageFromMessage toCvShare image_msg
    match image_op with
    | none => .undefinedBehaviour log
    | some image =>
      let image := flip image (-1)
      let transformed_msg := createImageMessage image_msg image
      match node._publishers[i]? with
      | none => .undefinedBehaviour log
      | some publisher =>
        .returned log [{ publisher := i, topic := publisher.topic, msg := transformed_msg }]

/-- Runs a second callback after a first one. -/
def Outcome.andThen (first second : Outcome) : Outcome :=
  match first with
  | .undefinedBehaviour log => .undefinedBehaviour log
  | .returned log published =>
    match second with
    | .undefinedBehaviour log2 => .undefinedBehaviour (log ++ log2)
    | .returned log2 published2 => .returned (log ++ log2) (published ++ published2)

/-- Modelled from the spec: delivery of one inbound message by the transport
(roscpp, library code, not part of this repository): every subscription of the
node on `topic` has its callback invoked with the message, in subscription
order. The callbacks receive the message as a pointer to const and
`cv::cvtColor` writes into a matrix of its own, so each of them sees the
message as it arrived. -/
def deliver (toCvShare : CvBridge) (node : CameraTransformerNode) (topic : String)
    (image_msg : Image) : Outcome :=
  (node._subscribers.filter (fun s => s.topic = topic)).foldl
    (fun acc s => acc.andThen (transform_image toCvShare node s.callback image_msg))
    (.returned [] [])

/-! ## Start-up -/

/-- A `boost::program_options::option` of the parsed command line: the option
name and its tokens. -/
structure ParsedOption where
  string_key : String
  value : List String
deriving DecidableEq, Repr

/-- Lines 151-156 of `main`: the token lists of the `camera` options, in
command-line order. -/
def cameraArgs (options : List ParsedOption) : List (List String) :=
  (options.filter (fun o => o.string_key = "camera")).map (fun o => o.value)

/-- Lines 166-176 of `main`: the loop that builds `camera_transforms`;
`Except.error code` stands for `exit(code)`. -/
def buildTransforms : List (List String) → List CameraTransform →
    Except Nat (List CameraTransform)
  | [], camera_transforms => .ok camera_transforms
  | arg_list :: rest, camera_transforms =>
    if h : arg_list.length < 2 then
      .error 1
    else
      let image_topic := arg_list.get ⟨0, by omega⟩
      let transform_topic := arg_list.get ⟨1, by omega⟩
      let transform : CameraTransform :=
        { topic := image_topic, transformed_topic := transform_topic }
      buildTransforms rest (camera_transforms ++ [transform])

/-- What `store` and `notify` leave in the `variables_map`, as far as `main`
reads it: `vm.count(name)` for every option name. -/
abbrev VariablesMap := String → Nat

/-- The library calls `store(parsed_options, vm); notify(vm);` of
boost::program_options (lines 158-159): either the variables map, or the text
of the exception they throw. The model takes them as a parameter. -/
abbrev Store := List ParsedOption → Except String VariablesMap

/-- How `main` stands once start-up is over: the exit code if the process has
ended (`none` while it is in `ros::spin`), what it did to the transport, the
node if one was constructed, and whether it ran into undefined behaviour. -/
structure Process where
  exitCode : Option Nat
  world : World
  node : Option CameraTransformerNode
  undefinedBehaviour : Bool
deriving DecidableEq, Repr

/-- The function `main` up to `ros::spin()`. `parsed` is what
`parse_command_line` did (line 148): the options it returned or the text of
the exception it threw. The body of `main` is one `try` block whose handler
prints the exception and falls through to `return 0` (lines 188-193), so an
exception of `parse_command_line` or of `store`/`notify` ends the process with
code 0. Otherwise the `camera` token lists are collected, a `help` option ends
the process with `exit(1)`, the registry is built, and only then is the node
constructed. The calls into roscpp are taken to succeed. -/
def main (store : Store) (parsed : Except String (List ParsedOption)) : Process :=
  match parsed with
  | .error _ =>
    { exitCode := some 0, world := World.initial, node := none, undefinedBehaviour := false }
  | .ok options =>
    let camera_args := cameraArgs options
    match store options with
    | .error _ =>
      { exitCode := some 0, world := World.initial, node := none, undefinedBehaviour := false }
    | .ok vm =>
      if vm "help" ≠ 0 then
        { exitCode := some 1, world := World.initial, node := none,
          undefinedBehaviour := false }
      else
        match buildTransforms camera_args [] with
        | .error code =>
          { exitCode := some code, world := World.initial, node := none,
            undefinedBehaviour := false }
        | .ok camera_transforms =>
          match CameraTransformerNode.new World.initial camera_transforms with
          | none =>
            { exitCode := none, world := World.initial, node := none,
              undefinedBehaviour := true }
          | some (w, object_detector_node) =>
            { exitCode := none, world := w, node := some object_detector_node,
              undefinedBehaviour := false }

/-- A concrete `store` for evaluating the model on examples. `help` is declared
without a value, and boost throws `multiple_occurrences` when such an option is
given a second time; `camera` is a vector option and may be repeated. When
nothing is thrown every option given counts once. The theorems below hold for
every `store`. -/
def sampleStore : Store := fun options =>
  if 2 ≤ (options.filter (fun o => o.string_key = "help")).length then
    .error "option '--help' cannot be specified more than once"
  else
    .ok (fun name => if options.any (fun o => o.string_key = name) then 1 else 0)

/-! ## Concrete inputs -/

/-- A 4x4 buffer whose pixel at `(r, c)` has the channels `16r + 4c`,
`16r + 4c + 1`, `16r + 4c + 2`. -/
def sampleMat : Mat :=
  { rows := 4
    cols := 4
    data := (List.range 4).map (fun r => (List.range 4).map (fun c =>
      { c0 := 16 * r + 4 * c, c1 := 16 * r + 4 * c + 1, c2 := 16 * r + 4 * c + 2 })) }

/-- A 2x2 `bgr8` message with header `seq = 7`, `stamp = 100 s 5 ns`. -/
def sampleMsg : Image :=
  { header := { seq := 7, stamp := { sec := 100, nsec := 5 }, frame_id := "cam1" }
    height := 2
    width := 2
    encoding := "bgr8"
    is_bigendian := false
    step := 6
    data := [1, 2, 3, 4, 5, 6, 7, 8, 9, 10, 11, 12] }

/-- The matrix cv_bridge returns for `sampleMsg`. -/
def sampleBgr : Mat :=
  { rows := 2
    cols := 2
    data := [[{ c0 := 1, c1 := 2, c2 := 3 }, { c0 := 4, c1 := 5, c2 := 6 }],
             [{ c0 := 7, c1 := 8, c2 := 9 }, { c0 := 10, c1 := 11, c2 := 12 }]] }

/-- A 1x1 message in the one-channel float encoding `32FC1`, which has no
conversion to `bgr8`. -/
def undecodableMsg : Image :=
  { header := { seq := 8, stamp := { sec := 101, nsec := 0 }, frame_id := "cam1" }
    height := 1
    width := 1
    encoding := "32FC1"
    is_bigendian := false
    step := 4
    data := [0, 0, 128, 63] }

/-- The registry of the command line
`--camera cam1/image cam1/image_transformed`. -/
def sampleTransforms : List CameraTransform :=
  [{ topic := "cam1/image", transformed_topic := "cam1/image_transformed" }]

/-- A registry with one mapping for a second camera. -/
def sampleTransforms2 : List CameraTransform :=
  [{ topic := "cam2/image", transformed_topic := "cam2/image_transformed" }]

/-- The node constructed for `sampleTransforms`. -/
def sampleNode : CameraTransformerNode :=
  { _publishers := [{ topic := "cam1/image_transformed", queue_size := 5 }]
    _subscribers := [{ topic := "cam1/image", queue_size := 10, callback := 0 }]
    _subscriber_callbacks := [0]
    _transforms := sampleTransforms }

/-- The transport after the construction of `sampleNode`. -/
def sampleWorld : World :=
  { advertised := ["cam1/image_transformed"], subscribed := ["cam1/image"] }

/-- The token lists of the command line
`--camera cam1/image cam1/out_a --camera cam1/image cam1/out_b 180`. -/
def sampleCameraArgs : List (List String) :=
  [["cam1/image", "cam1/out_a"], ["cam1/image", "cam1/out_b", "180"]]

/-- The parsed options of the command line
`--camera cam1/image cam1/out_a --camera cam2/image`, whose second
stream pair has one token. -/
def shortOptions : List ParsedOption :=
  [{ string_key := "camera", value := ["cam1/image", "cam1/out_a"] },
   { string_key := "camera", value := ["cam2/image"] }]

/-- The parsed options of the command line
`--camera cam2/image --help --help`: a stream pair of one token, and `help`
given twice. -/
def shortHelpOptions : List ParsedOption :=
  [{ string_key := "camera", value := ["cam2/image"] },
   { string_key := "help", value := [] },
   { string_key := "help", value := [] }]

/-! ## The rotation -/

theorem flip_neg_one_data (image : Mat) :
    (flip image (-1)).data = image.data.reverse.map List.reverse := by
  simp [flip, flipVert, flipHoriz]

theorem Mat.at?_eq_some_of_lt (m : Mat) (h : m.WellFormed) (r c : Nat)
    (hr : r < m.rows) (hc : c < m.cols) : ∃ p, m.at? r c = some p := by
  obtain ⟨hlen, hrow⟩ := h
  have hr2 : r < m.data.length := by omega
  have hmem : m.data[r] ∈ m.data := List.getElem_mem hr2
  have hc2 : c < (m.data[r]).length := by rw [hrow _ hmem]; exact hc
  refine ⟨(m.data[r])[c], ?_⟩
  simp [Mat.at?, List.getElem?_eq_getElem hr2, List.getElem?_eq_getElem hc2]

theorem flip_neg_one_wellFormed (image : Mat) (h : image.WellFormed) :
    (flip image (-1)).WellFormed := by
  obtain ⟨hlen, hrow⟩ := h
  refine ⟨?_, ?_⟩
  · simpa [flip, flipVert, flipHoriz] using hlen
  · intro row hmem
    rw [flip_neg_one_data] at hmem
    simp only [List.mem_map, List.mem_reverse] at hmem
    obtain ⟨row0, hmem0, rfl⟩ := hmem
    simpa [flip, flipVert, flipHoriz] using hrow row0 hmem0

theorem flip_neg_one_at? (image : Mat) (h : image.WellFormed) (r c : Nat)
    (hr : r < image.rows) (hc : c < image.cols) :
    (flip image (-1)).at? r c = image.at? (image.rows - 1 - r) (image.cols - 1 - c) := by
  obtain ⟨hlen, hrow⟩ := h
  have hr2 : r < image.data.length := by omega
  have hr3 : image.data.length - 1 - r < image.data.length := by omega
  have hmem : image.data[image.data.length - 1 - r] ∈ image.data := List.getElem_mem hr3
  have hc2 : c < (image.data[image.data.length - 1 - r]).length := by
    rw [hrow _ hmem]; exact hc
  simp only [Mat.at?, flip_neg_one_data, List.getElem?_map, List.getElem?_reverse hr2,
    List.getElem?_eq_getElem hr3, Option.map_some', ← hlen]
  rw [List.getElem?_reverse hc2, hrow _ hmem]

/-- C1: on a well-formed three-channel buffer of height `H` and width `W`,
`flip` with code `-1` (the transform of `transform_image`) keeps height, width
and channel count, and its pixel at `(r, c)` is the original pixel at
`(H-1-r, W-1-c)` for all `r < H`, `c < W`; for a 4x4 image the corners `(0,0)`
and `(3,3)` change places. -/
theorem flip_both_axes_pixel (image : Mat) (h : image.WellFormed) :
    (flip image (-1)).rows = image.rows ∧
    (flip image (-1)).cols = image.cols ∧
    (flip image (-1)).channels = image.channels ∧
    (flip image (-1)).WellFormed ∧
    (∀ r c, r < image.rows → c < image.cols →
      ∃ p, image.at? (image.rows - 1 - r) (image.cols - 1 - c) = some p ∧
        (flip image (-1)).at? r c = some p) ∧
    (image.rows = 4 → image.cols = 4 →
      ∃ p q, image.at? 3 3 = some p ∧ image.at? 0 0 = some q ∧
        (flip image (-1)).at? 0 0 = some p ∧ (flip image (-1)).at? 3 3 = some q) := by
  refine ⟨by simp [flip, flipVert, flipHoriz], by simp [flip, flipVert, flipHoriz], rfl,
    flip_neg_one_wellFormed image h, ?_, ?_⟩
  · intro r c hr hc
    obtain ⟨p, hp⟩ := Mat.at?_eq_some_of_lt image h (image.rows - 1 - r) (image.cols - 1 - c)
      (by omega) (by omega)
    exact ⟨p, hp, by rw [flip_neg_one_at? image h r c hr hc, hp]⟩
  · intro h4 w4
    obtain ⟨p, hp⟩ := Mat.at?_eq_some_of_lt image h 3 3 (by omega) (by omega)
    obtain ⟨q, hq⟩ := Mat.at?_eq_some_of_lt image h 0 0 (by omega) (by omega)
    refine ⟨p, q, hp, hq, ?_, ?_⟩
    · rw [flip_neg_one_at? image h 0 0 (by omega) (by omega), h4, w4]; exact hp
    · rw [flip_neg_one_at? image h 3 3 (by omega) (by omega), h4, w4]; exact hq

/-- C2: the rotation of `transform_image` is an involution: `flip` with code
`-1` applied twice returns the buffer it started from, for every buffer,
empty ones and odd sizes included. -/
theorem flip_neg_one_involution (buf : Mat) : flip (flip buf (-1)) (-1) = buf := by
  have hrev : (List.reverse : List Vec3b → List Vec3b) ∘ List.reverse = id := by
    funext row; simp
  cases buf with
  | mk rows cols data =>
    simp [flip, flipVert, flipHoriz, List.map_reverse, hrev]

/-! ## Packing a buffer into a message -/

theorem rowBytes_length (row : List Vec3b) :
    (row.flatMap Vec3b.bytes).length = 3 * row.length := by
  induction row with
  | nil => simp
  | cons p rest ih => simp [List.flatMap_cons, Vec3b.bytes, ih]; omega

theorem rowBytes_getElem? (row : List Vec3b) (c : Nat) (p : Vec3b) (hp : row[c]? = some p) :
    (row.flatMap Vec3b.bytes)[3 * c]? = some p.c0 ∧
    (row.flatMap Vec3b.bytes)[3 * c + 1]? = some p.c1 ∧
    (row.flatMap Vec3b.bytes)[3 * c + 2]? = some p.c2 := by
  induction row generalizing c with
  | nil => simp at hp
  | cons q rest ih =>
    cases c with
    | zero =>
      simp at hp
      subst hp
      simp [List.flatMap_cons, Vec3b.bytes]
    | succ k =>
      simp at hp
      obtain ⟨h0, h1, h2⟩ := ih k hp
      have e0 : 3 * (k + 1) = 3 * k + 1 + 1 + 1 := by omega
      have e1 : 3 * (k + 1) + 1 = 3 * k + 1 + 1 + 1 + 1 := by omega
      have e2 : 3 * (k + 1) + 2 = 3 * k + 2 + 1 + 1 + 1 := by omega
      refine ⟨?_, ?_, ?_⟩
      · rw [e0]; simpa [List.flatMap_cons, Vec3b.bytes] using h0
      · rw [e1]; simpa [List.flatMap_cons, Vec3b.bytes] using h1
      · rw [e2]; simpa [List.flatMap_cons, Vec3b.bytes] using h2

theorem flatten_getElem?_of_uniform {α : Type} (L : Nat) (rows : List (List α))
    (hrows : ∀ row ∈ rows, row.length = L) (r j : Nat) (row : List α)
    (hr : rows[r]? = some row) (hj : j < L) :
    rows.flatten[r * L + j]? = row[j]? := by
  induction rows generalizing r with
  | nil => simp at hr
  | cons first rest ih =>
    have hfirst : first.length = L := hrows first (List.mem_cons_self _ _)
    cases r with
    | zero =>
      simp at hr
      subst hr
      simp only [List.flatten_cons, Nat.zero_mul, Nat.zero_add]
      exact List.getElem?_append_left (by omega)
    | succ k =>
      simp at hr
      have hrest : ∀ row ∈ rest, row.length = L := fun row hmem =>
        hrows row (List.mem_cons_of_mem _ hmem)
      have hge : first.length ≤ (k + 1) * L + j := by
        rw [hfirst, Nat.succ_mul]; omega
      rw [List.flatten_cons, List.getElem?_append_right hge]
      have e : (k + 1) * L + j - first.length = k * L + j := by
        rw [hfirst, Nat.succ_mul]; omega
      rw [e]
      exact ih hrest k hr

theorem toImageMsg_pixel? (header : Header) (encoding : String) (m : Mat)
    (h : m.WellFormed) (r c : Nat) (hr : r < m.rows) (hc : c < m.cols) :
    (CvImage.toImageMsg { header := header, encoding := encoding, image := m }).pixel? r c
      = m.at? r c := by
  obtain ⟨hlen, hrow⟩ := h
  have hr2 : r < m.data.length := by omega
  have hmem : m.data[r] ∈ m.data := List.getElem_mem hr2
  have hc2 : c < (m.data[r]).length := by rw [hrow _ hmem]; exact hc
  have hpix : (m.data[r])[c]? = some ((m.data[r])[c]) := List.getElem?_eq_getElem hc2
  obtain ⟨h0, h1, h2⟩ := rowBytes_getElem? (m.data[r]) c _ hpix
  have huni : ∀ row ∈ m.data.map (fun row => row.flatMap Vec3b.bytes),
      row.length = 3 * m.cols := by
    intro row hm
    simp only [List.mem_map] at hm
    obtain ⟨row0, hm0, rfl⟩ := hm
    rw [rowBytes_length, hrow _ hm0]
  have hget : (m.data.map (fun row => row.flatMap Vec3b.bytes))[r]?
      = some ((m.data[r]).flatMap Vec3b.bytes) := by
    simp [List.getElem?_eq_getElem hr2]
  have key : ∀ j, j < 3 * m.cols →
      m.bytes[r * (m.cols * 3) + j]? = ((m.data[r]).flatMap Vec3b.bytes)[j]? := by
    intro j hj
    have := flatten_getElem?_of_uniform (3 * m.cols) _ huni r j _ hget hj
    rw [Nat.mul_comm m.cols 3]
    exact this
  have k0 := key (3 * c) (by omega)
  have k1 := key (3 * c + 1) (by omega)
  have k2 := key (3 * c + 2) (by omega)
  simp only [← Nat.add_assoc] at k0 k1 k2
  simp only [Image.pixel?, CvImage.toImageMsg, hr, hc, and_self, if_true, k0, k1, k2, h0, h1,
    h2, Mat.at?, List.getElem?_eq_getElem hr2, hpix]

/-! ## Construction of the node -/

theorem constructor_loop (w : World) (ts : List CameraTransform) (k : Nat)
    (hk : k ≤ ts.length) :
    (List.range k).foldlM constructorStep
        (w, ({ _publishers := [], _subscribers := [], _subscriber_callbacks := [],
               _transforms := ts } : CameraTransformerNode))
      = some
        (({ advertised := w.advertised ++ (ts.take k).map (fun t => t.transformed_topic)
            subscribed := w.subscribed ++ (ts.take k).map (fun t => t.topic) } : World),
         ({ _publishers := (ts.take k).map (fun t => { topic := t.transformed_topic, queue_size := 5 })
            _subscribers := (ts.take k).enum.map
              (fun it => { topic := it.2.topic, queue_size := 10, callback := it.1 })
            _subscriber_callbacks := List.range k
            _transforms := ts } : CameraTransformerNode)) := by
  induction k with
  | zero => simp [World.initial]
  | succ k ih =>
    have hk2 : k < ts.length := by omega
    have hget : ts[k]? = some ts[k] := List.getElem?_eq_getElem hk2
    have hlen : (List.take k ts).length = k := by simp; omega
    rw [List.range_succ, List.foldlM_append, ih (by omega)]
    simp only [List.foldlM_cons, List.foldlM_nil, constructorStep, hget]
    have hcb : (List.range k ++ [k])[k]? = some k := by
      rw [List.getElem?_append_right (by simp)]; simp
    simp only [hcb, List.take_succ, hget, Option.toList_some, List.map_append, List.map_cons,
      List.map_nil, List.append_assoc, List.enum, List.enumFrom_append, hlen, Nat.zero_add,
      List.enumFrom_cons, List.enumFrom_nil, Option.bind_eq_bind, Option.some_bind,
      Option.pure_def]

theorem CameraTransformerNode.new_eq (w : World) (ts : List CameraTransform) :
    CameraTransformerNode.new w ts = some
      (({ advertised := w.advertised ++ ts.map (fun t => t.transformed_topic)
          subscribed := w.subscribed ++ ts.map (fun t => t.topic) } : World),
       ({ _publishers := ts.map (fun t => { topic := t.transformed_topic, queue_size := 5 })
          _subscribers := ts.enum.map
            (fun it => { topic := it.2.topic, queue_size := 10, callback := it.1 })
          _subscriber_callbacks := List.range ts.length
          _transforms := ts } : CameraTransformerNode)) := by
  have h := constructor_loop w ts ts.length (Nat.le_refl _)
  simpa [CameraTransformerNode.new, List.take_length] using h

theorem sampleNode_constructed :
    CameraTransformerNode.new World.initial sampleTransforms = some (sampleWorld, sampleNode) := by
  rw [CameraTransformerNode.new_eq]
  rfl

/-! ## The callback -/

theorem transform_image_of_decoded (toCvShare : CvBridge) (node : CameraTransformerNode)
    (i : Nat) (image_msg : Image) (bgr : Mat) (t : CameraTransform) (pub : Publisher)
    (ht : node._transforms[i]? = some t) (hp : node._publishers[i]? = some pub)
    (hdec : toCvShare image_msg BGR8 = .ok bgr) :
    transform_image toCvShare node i image_msg = .returned []
      [{ publisher := i, topic := pub.topic,
         msg := createImageMessage image_msg (flip (cvtColorBGR2RGB bgr) (-1)) }] := by
  simp [transform_image, getImageFromMessage, ht, hp, hdec]

theorem transform_image_of_decode_error (toCvShare : CvBridge) (node : CameraTransformerNode)
    (i : Nat) (image_msg : Image) (e : String) (t : CameraTransform)
    (ht : node._transforms[i]? = some t) (hdec : toCvShare image_msg BGR8 = .error e) :
    transform_image toCvShare node i image_msg
      = .undefinedBehaviour ["cv_bridge exception: " ++ e] := by
  simp [transform_image, getImageFromMessage, ht, hdec]

theorem cvtColorBGR2RGB_wellFormed (m : Mat) (h : m.WellFormed) :
    (cvtColorBGR2RGB m).WellFormed := by
  obtain ⟨hlen, hrow⟩ := h
  refine ⟨by simpa [cvtColorBGR2RGB] using hlen, ?_⟩
  intro row hmem
  simp only [cvtColorBGR2RGB, List.mem_map] at hmem
  obtain ⟨row0, hmem0, rfl⟩ := hmem
  simpa [cvtColorBGR2RGB] using hrow row0 hmem0

theorem cvtColorBGR2RGB_at? (m : Mat) (r c : Nat) :
    (cvtColorBGR2RGB m).at? r c = (m.at? r c).map Vec3b.swapRB := by
  simp only [Mat.at?, cvtColorBGR2RGB, List.getElem?_map]
  cases m.data[r]? with
  | none => rfl
  | some row => simp

/-- C3: the message `createImageMessage` builds carries `header.seq` and
`header.stamp` of the inbound message, whatever the transformed buffer holds:
two different buffers give the same header. -/
theorem createImageMessage_preserves_metadata (image_msg : Image) (transformed other : Mat) :
    (createImageMessage image_msg transformed).header.seq = image_msg.header.seq ∧
    (createImageMessage image_msg transformed).header.stamp = image_msg.header.stamp ∧
    (createImageMessage image_msg transformed).header
      = (createImageMessage image_msg other).header := by
  simp [createImageMessage, CvImage.toImageMsg]

/-- C4 (the code departs from the claim): for the message `undecodableMsg`,
whose decode fails, `getImageFromMessage` logs the error and returns the absent
value, and `transform_image` then dereferences that absent value: it does not
return normally with nothing published. -/
theorem transform_image_decode_failure_dereferences_none :
    getImageFromMessage sampleBridge undecodableMsg
      = (["cv_bridge exception: Unsupported conversion from [32FC1] to [bgr8]"], none) ∧
    transform_image sampleBridge sampleNode 0 undecodableMsg
      = .undefinedBehaviour ["cv_bridge exception: Unsupported conversion from [32FC1] to [bgr8]"] ∧
    ∀ log, transform_image sampleBridge sampleNode 0 undecodableMsg ≠ .returned log [] := by
  have hdec : sampleBridge undecodableMsg BGR8
      = .error "Unsupported conversion from [32FC1] to [bgr8]" := by
    simp [sampleBridge, undecodableMsg, BGR8]
  have ht : sampleNode._transforms[0]? = some
      { topic := "cam1/image", transformed_topic := "cam1/image_transformed" } := rfl
  refine ⟨?_, ?_, ?_⟩
  · simp [getImageFromMessage, hdec]
  · rw [transform_image_of_decode_error _ _ _ _ _ _ ht hdec]
    simp
  · intro log
    rw [transform_image_of_decode_error _ _ _ _ _ _ ht hdec]
    simp

/-- C8: when cv_bridge decodes the inbound message to the `bgr8` matrix `bgr`,
the message `transform_image` publishes is labelled `rgb8`, has the size of
`bgr`, and its bytes are re-encoded: the pixel at `(r, c)` has the channels of
the inbound pixel it comes from (the one at `(H-1-r, W-1-c)`, because of the
rotation) in reversed order, `(c2, c1, c0)` for `(c0, c1, c2)`. -/
theorem transform_image_reencodes_to_rgb (toCvShare : CvBridge) (w : World)
    (transforms : List CameraTransform) (i : Nat) (image_msg : Image) (bgr : Mat)
    (hi : i < transforms.length)
    (hdec : toCvShare image_msg BGR8 = .ok bgr) (hwf : bgr.WellFormed) :
    ∃ w' node topic out,
      CameraTransformerNode.new w transforms = some (w', node) ∧
      transform_image toCvShare node i image_msg
        = .returned [] [{ publisher := i, topic := topic, msg := out }] ∧
      out.encoding = "rgb8" ∧ out.height = bgr.rows ∧ out.width = bgr.cols ∧
      ∀ r c, r < bgr.rows → c < bgr.cols →
        ∃ p, bgr.at? (bgr.rows - 1 - r) (bgr.cols - 1 - c) = some p ∧
          out.pixel? r c = some { c0 := p.c2, c1 := p.c1, c2 := p.c0 } := by
  have ht : transforms[i]? = some transforms[i] := List.getElem?_eq_getElem hi
  refine ⟨_, _, transforms[i].transformed_topic,
    createImageMessage image_msg (flip (cvtColorBGR2RGB bgr) (-1)),
    CameraTransformerNode.new_eq w transforms, ?_, rfl, ?_, ?_, ?_⟩
  · refine transform_image_of_decoded toCvShare _ i image_msg bgr transforms[i]
      { topic := transforms[i].transformed_topic, queue_size := 5 } ?_ ?_ hdec
    · exact ht
    · simp [ht]
  · simp [createImageMessage, CvImage.toImageMsg, flip, flipVert, flipHoriz, cvtColorBGR2RGB]
  · simp [createImageMessage, CvImage.toImageMsg, flip, flipVert, flipHoriz, cvtColorBGR2RGB]
  · intro r c hr hc
    have hwf2 := cvtColorBGR2RGB_wellFormed bgr hwf
    have hwf3 := flip_neg_one_wellFormed _ hwf2
    obtain ⟨p, hp⟩ := Mat.at?_eq_some_of_lt bgr hwf (bgr.rows - 1 - r) (bgr.cols - 1 - c)
      (by omega) (by omega)
    refine ⟨p, hp, ?_⟩
    have hrows : (flip (cvtColorBGR2RGB bgr) (-1)).rows = bgr.rows := by
      simp [flip, flipVert, flipHoriz, cvtColorBGR2RGB]
    have hcols : (flip (cvtColorBGR2RGB bgr) (-1)).cols = bgr.cols := by
      simp [flip, flipVert, flipHoriz, cvtColorBGR2RGB]
    have h1 := toImageMsg_pixel?
      { seq := image_msg.header.seq, stamp := image_msg.header.stamp, frame_id := "" } RGB8
      (flip (cvtColorBGR2RGB bgr) (-1)) hwf3 r c (by rw [hrows]; exact hr) (by rw [hcols]; exact hc)
    have h2 := flip_neg_one_at? (cvtColorBGR2RGB bgr) hwf2 r c hr hc
    have h3 := cvtColorBGR2RGB_at? bgr (bgr.rows - 1 - r) (bgr.cols - 1 - c)
    have hr' : (cvtColorBGR2RGB bgr).rows = bgr.rows := rfl
    have hc' : (cvtColorBGR2RGB bgr).cols = bgr.cols := rfl
    rw [hr', hc', h3, hp] at h2
    simp only [createImageMessage, Header.empty]
    rw [h1, h2]
    rfl

/-- C10: the constructor returns a node with one publisher, one subscription and
one callback per mapping, in registry order: publisher `i` advertises the
output name of mapping `i`, subscription `i` listens on its input name with the
callback bound to `i`; and for a message cv_bridge decodes,
`transform_image(i, msg)` publishes exactly one message, through publisher `i`
on the output name of mapping `i`. -/
theorem constructor_index_correlation (w : World) (transforms : List CameraTransform) :
    ∃ w' node, CameraTransformerNode.new w transforms = some (w', node) ∧
      node._transforms = transforms ∧
      node._publishers.length = transforms.length ∧
      node._subscribers.length = transforms.length ∧
      node._subscriber_callbacks.length = transforms.length ∧
      w'.advertised = w.advertised ++ transforms.map (fun t => t.transformed_topic) ∧
      w'.subscribed = w.subscribed ++ transforms.map (fun t => t.topic) ∧
      ∀ i t, transforms[i]? = some t →
        node._publishers[i]? = some { topic := t.transformed_topic, queue_size := 5 } ∧
        node._subscribers[i]? = some { topic := t.topic, queue_size := 10, callback := i } ∧
        node._subscriber_callbacks[i]? = some i ∧
        ∀ (toCvShare : CvBridge) (image_msg : Image) (image : Mat),
          toCvShare image_msg BGR8 = .ok image →
          transform_image toCvShare node i image_msg = .returned []
            [{ publisher := i, topic := t.transformed_topic,
               msg := createImageMessage image_msg (flip (cvtColorBGR2RGB image) (-1)) }] := by
  refine ⟨_, _, CameraTransformerNode.new_eq w transforms, rfl, by simp, by simp, by simp, rfl,
    rfl, ?_⟩
  intro i t ht
  have hi : i < transforms.length := by
    rcases Nat.lt_or_ge i transforms.length with h | h
    · exact h
    · rw [List.getElem?_eq_none h] at ht; cases ht
  have hpub : (transforms.map (fun t => ({ topic := t.transformed_topic, queue_size := 5 }
      : Publisher)))[i]? = some { topic := t.transformed_topic, queue_size := 5 } := by
    simp [ht]
  refine ⟨hpub, by simp [List.getElem?_enum, ht], ?_, ?_⟩
  · rw [List.getElem?_eq_getElem (by simpa using hi)]; simp
  · intro toCvShare image_msg image hdec
    refine transform_image_of_decoded toCvShare _ i image_msg image t
      { topic := t.transformed_topic, queue_size := 5 } ?_ ?_ hdec
    · exact ht
    · exact hpub

theorem foldl_callbacks_of_decoded (toCvShare : CvBridge) (node : CameraTransformerNode)
    (image_msg : Image) (image : Mat) (hdec : toCvShare image_msg BGR8 = .ok image)
    (l : List (Nat × CameraTransform))
    (hl : ∀ it ∈ l, node._transforms[it.1]? = some it.2 ∧
      node._publishers[it.1]? = some { topic := it.2.transformed_topic, queue_size := 5 })
    (acc : List Publication) :
    (l.map (fun it => ({ topic := it.2.topic, queue_size := 10, callback := it.1 }
        : Subscriber))).foldl
      (fun (out : Outcome) (s : Subscriber) =>
        out.andThen (transform_image toCvShare node s.callback image_msg))
      (Outcome.returned [] acc)
    = Outcome.returned [] (acc ++ l.map (fun it =>
        ({ publisher := it.1, topic := it.2.transformed_topic,
           msg := createImageMessage image_msg (flip (cvtColorBGR2RGB image) (-1)) }
          : Publication))) := by
  induction l generalizing acc with
  | nil => simp
  | cons it rest ih =>
    obtain ⟨ht, hp⟩ := hl it (List.mem_cons_self _ _)
    have hrest := fun it2 (h2 : it2 ∈ rest) => hl it2 (List.mem_cons_of_mem _ h2)
    have hcall := transform_image_of_decoded toCvShare node it.1 image_msg image it.2 _ ht hp hdec
    have hand : ∀ x : Publication, (Outcome.returned [] acc).andThen (Outcome.returned [] [x])
        = Outcome.returned [] (acc ++ [x]) := fun _ => rfl
    simp only [List.map_cons, List.foldl_cons, hcall, hand]
    rw [ih hrest]
    simp

theorem deliver_of_decoded (toCvShare : CvBridge) (w : World) (ts : List CameraTransform)
    (input : String) (image_msg : Image) (image : Mat)
    (hdec : toCvShare image_msg BGR8 = .ok image) :
    ∃ w' node, CameraTransformerNode.new w ts = some (w', node) ∧
      deliver toCvShare node input image_msg = .returned []
        ((ts.enum.filter (fun it => it.2.topic = input)).map (fun it =>
          ({ publisher := it.1, topic := it.2.transformed_topic,
             msg := createImageMessage image_msg (flip (cvtColorBGR2RGB image) (-1)) }
            : Publication))) := by
  refine ⟨_, _, CameraTransformerNode.new_eq w ts, ?_⟩
  simp only [deliver, List.filter_map]
  have hl : ∀ it ∈ ts.enum.filter ((fun s : Subscriber => decide (s.topic = input)) ∘
      fun it => { topic := it.2.topic, queue_size := 10, callback := it.1 }),
      ts[it.1]? = some it.2 ∧
      (ts.map (fun t => ({ topic := t.transformed_topic, queue_size := 5 } : Publisher)))[it.1]?
        = some { topic := it.2.transformed_topic, queue_size := 5 } := by
    intro it hit
    have hmem : it ∈ ts.enum := List.mem_of_mem_filter hit
    have hget : ts[it.1]? = some it.2 := List.mem_enum_iff_getElem?.mp hmem
    exact ⟨hget, by simp [hget]⟩
  have h := foldl_callbacks_of_decoded toCvShare
    ({ _publishers := ts.map (fun t => { topic := t.transformed_topic, queue_size := 5 })
       _subscribers := ts.enum.map
         (fun it => { topic := it.2.topic, queue_size := 10, callback := it.1 })
       _subscriber_callbacks := List.range ts.length
       _transforms := ts } : CameraTransformerNode) image_msg image hdec _ hl []
  rw [h]
  rfl

theorem filter_enumFrom_of_other_topic (input : String) (l : List CameraTransform) (n : Nat)
    (h : ∀ m ∈ l, m.topic ≠ input) :
    (l.enumFrom n).filter (fun it => it.2.topic = input) = [] := by
  rw [List.filter_eq_nil_iff]
  intro it hit
  obtain ⟨i, m⟩ := it
  obtain ⟨_, _, hm⟩ := List.mem_enumFrom hit
  have hmem : m ∈ l := by rw [hm]; exact List.getElem_mem _
  simpa using h m hmem

theorem rotated_message_content (image_msg : Image) (bgr : Mat) (hwf : bgr.WellFormed) :
    (createImageMessage image_msg (flip (cvtColorBGR2RGB bgr) (-1))).encoding = "rgb8" ∧
    (createImageMessage image_msg (flip (cvtColorBGR2RGB bgr) (-1))).height = bgr.rows ∧
    (createImageMessage image_msg (flip (cvtColorBGR2RGB bgr) (-1))).width = bgr.cols ∧
    ∀ r c, r < bgr.rows → c < bgr.cols →
      ∃ p, bgr.at? (bgr.rows - 1 - r) (bgr.cols - 1 - c) = some p ∧
        (createImageMessage image_msg (flip (cvtColorBGR2RGB bgr) (-1))).pixel? r c
          = some { c0 := p.c2, c1 := p.c1, c2 := p.c0 } := by
  refine ⟨rfl, ?_, ?_, ?_⟩
  · simp [createImageMessage, CvImage.toImageMsg, flip, flipVert, flipHoriz, cvtColorBGR2RGB]
  · simp [createImageMessage, CvImage.toImageMsg, flip, flipVert, flipHoriz, cvtColorBGR2RGB]
  · intro r c hr hc
    have hwf2 := cvtColorBGR2RGB_wellFormed bgr hwf
    have hwf3 := flip_neg_one_wellFormed _ hwf2
    obtain ⟨p, hp⟩ := Mat.at?_eq_some_of_lt bgr hwf (bgr.rows - 1 - r) (bgr.cols - 1 - c)
      (by omega) (by omega)
    refine ⟨p, hp, ?_⟩
    have hrows : (flip (cvtColorBGR2RGB bgr) (-1)).rows = bgr.rows := by
      simp [flip, flipVert, flipHoriz, cvtColorBGR2RGB]
    have hcols : (flip (cvtColorBGR2RGB bgr) (-1)).cols = bgr.cols := by
      simp [flip, flipVert, flipHoriz, cvtColorBGR2RGB]
    have hpacked := toImageMsg_pixel?
      { seq := image_msg.header.seq, stamp := image_msg.header.stamp, frame_id := "" } RGB8
      (flip (cvtColorBGR2RGB bgr) (-1)) hwf3 r c (by rw [hrows]; exact hr) (by rw [hcols]; exact hc)
    have hflipped := flip_neg_one_at? (cvtColorBGR2RGB bgr) hwf2 r c hr hc
    have hswapped := cvtColorBGR2RGB_at? bgr (bgr.rows - 1 - r) (bgr.cols - 1 - c)
    have hr' : (cvtColorBGR2RGB bgr).rows = bgr.rows := rfl
    have hc' : (cvtColorBGR2RGB bgr).cols = bgr.cols := rfl
    rw [hr', hc', hswapped, hp] at hflipped
    simp only [createImageMessage, Header.empty]
    rw [hpacked, hflipped]
    rfl

/-- C7: in a registry where exactly two mappings listen on `input` (the mappings
before, between and after them have other input names), one decodable message
delivered on `input` is published exactly twice: through the publisher of the
first of the two on its output name and through the publisher of the second on
its output name. Both published messages are the same message `out`, and `out`
is the 180-degree rotation of the inbound image: it has the size of the decoded
image, the `seq` and `stamp` of the inbound message, the label `rgb8`, and its
pixel at `(r, c)` is the decoded pixel at `(H-1-r, W-1-c)` with the channels
taken from BGR to RGB order. -/
theorem fan_out_two_outputs (toCvShare : CvBridge) (w : World)
    (pre mid post : List CameraTransform) (input out1 out2 : String)
    (image_msg : Image) (image : Mat)
    (hpre : ∀ m ∈ pre, m.topic ≠ input) (hmid : ∀ m ∈ mid, m.topic ≠ input)
    (hpost : ∀ m ∈ post, m.topic ≠ input)
    (hdec : toCvShare image_msg BGR8 = .ok image) (hwf : image.WellFormed) :
    ∃ w' node out,
      CameraTransformerNode.new w
        (pre ++ { topic := input, transformed_topic := out1 } ::
          (mid ++ { topic := input, transformed_topic := out2 } :: post)) = some (w', node) ∧
      deliver toCvShare node input image_msg = .returned []
        [{ publisher := pre.length, topic := out1, msg := out },
         { publisher := pre.length + 1 + mid.length, topic := out2, msg := out }] ∧
      out.header.seq = image_msg.header.seq ∧
      out.header.stamp = image_msg.header.stamp ∧
      out.encoding = "rgb8" ∧ out.height = image.rows ∧ out.width = image.cols ∧
      ∀ r c, r < image.rows → c < image.cols →
        ∃ p, image.at? (image.rows - 1 - r) (image.cols - 1 - c) = some p ∧
          out.pixel? r c = some { c0 := p.c2, c1 := p.c1, c2 := p.c0 } := by
  obtain ⟨w', node, hnew, hdel⟩ := deliver_of_decoded toCvShare w
    (pre ++ { topic := input, transformed_topic := out1 } ::
      (mid ++ { topic := input, transformed_topic := out2 } :: post)) input image_msg image hdec
  obtain ⟨henc, hheight, hwidth, hpix⟩ := rotated_message_content image_msg image hwf
  refine ⟨w', node, createImageMessage image_msg (flip (cvtColorBGR2RGB image) (-1)), hnew, ?_,
    rfl, rfl, henc, hheight, hwidth, hpix⟩
  rw [hdel]
  simp only [List.enum, List.enumFrom_append, List.enumFrom_cons, List.filter_append,
    List.filter_cons, filter_enumFrom_of_other_topic input pre _ hpre,
    filter_enumFrom_of_other_topic input mid _ hmid,
    filter_enumFrom_of_other_topic input post _ hpost, decide_True, if_true, List.nil_append,
    List.append_nil, List.map_cons, List.map_nil, Nat.zero_add, List.cons_append]

/-! ## Start-up -/

theorem buildTransforms_of_valid (camera_args : List (List String))
    (acc : List CameraTransform) (h : ∀ a ∈ camera_args, 2 ≤ a.length) :
    buildTransforms camera_args acc = .ok (acc ++ camera_args.map (fun a =>
      ({ topic := (a[0]?).getD "", transformed_topic := (a[1]?).getD "" } : CameraTransform))) := by
  induction camera_args generalizing acc with
  | nil => simp [buildTransforms]
  | cons a rest ih =>
    have ha : 2 ≤ a.length := h a (List.mem_cons_self _ _)
    have hrest : ∀ b ∈ rest, 2 ≤ b.length := fun b hb => h b (List.mem_cons_of_mem _ hb)
    match a, ha with
    | x :: y :: tail, _ =>
      simp [buildTransforms, ih _ hrest]

theorem buildTransforms_of_short (camera_args : List (List String))
    (acc : List CameraTransform) (h : ∃ a ∈ camera_args, a.length < 2) :
    buildTransforms camera_args acc = .error 1 := by
  induction camera_args generalizing acc with
  | nil => simp at h
  | cons a rest ih =>
    by_cases ha : a.length < 2
    · simp [buildTransforms, ha]
    · have hrest : ∃ b ∈ rest, b.length < 2 := by
        obtain ⟨b, hb, hlt⟩ := h
        rcases List.mem_cons.mp hb with rfl | hmem
        · exact absurd hlt ha
        · exact ⟨b, hmem, hlt⟩
      simp only [buildTransforms, ha, dite_false]
      exact ih _ hrest

theorem valid_of_buildTransforms_ok (camera_args : List (List String))
    (acc ts : List CameraTransform) (h : buildTransforms camera_args acc = .ok ts) :
    ∀ a ∈ camera_args, 2 ≤ a.length := by
  intro a ha
  by_contra hlt
  have := buildTransforms_of_short camera_args acc ⟨a, ha, by omega⟩
  rw [this] at h
  cases h

/-- C5: when every stream-pair entry has at least 2 tokens, the loop of `main`
returns a registry with one mapping per entry, in input order, whose `k`-th
mapping has the first token of the `k`-th entry as input and the second as
output; duplicates are kept, and tokens after the second change nothing: the
entries cut to two tokens give the same registry. When the options are stored
without an exception and without a `help` option, that registry is the one
the node is constructed with. -/
theorem buildTransforms_registry (camera_args : List (List String))
    (h : ∀ a ∈ camera_args, 2 ≤ a.length) :
    ∃ ts, buildTransforms camera_args [] = .ok ts ∧
      ts.length = camera_args.length ∧
      (∀ (k : Nat) (a : List String), camera_args[k]? = some a →
        ∃ t : CameraTransform,
          ts[k]? = some t ∧ a[0]? = some t.topic ∧ a[1]? = some t.transformed_topic) ∧
      buildTransforms (camera_args.map (List.take 2)) [] = .ok ts ∧
      ∀ (store : Store) (options : List ParsedOption) (vm : VariablesMap),
        cameraArgs options = camera_args → store options = .ok vm → vm "help" = 0 →
        ∃ node, (main store (.ok options)).node = some node ∧ node._transforms = ts := by
  refine ⟨_, buildTransforms_of_valid camera_args [] h, by simp, ?_, ?_, ?_⟩
  · intro k a hk
    have hmem : a ∈ camera_args := List.getElem?_mem hk
    have ha := h a hmem
    match a, ha with
    | x :: y :: tail, _ =>
      exact ⟨{ topic := x, transformed_topic := y }, by simp [hk], by simp, by simp⟩
  · have h2 : ∀ a ∈ camera_args.map (List.take 2), 2 ≤ a.length := by
      intro a ha
      simp only [List.mem_map] at ha
      obtain ⟨b, hb, rfl⟩ := ha
      have := h b hb
      simp; omega
    rw [buildTransforms_of_valid _ [] h2]
    simp only [List.nil_append, List.map_map]
    congr 1
    apply List.map_congr_left
    intro a ha
    have := h a ha
    match a, this with
    | x :: y :: tail, _ => simp
  · intro store options vm hargs hstore hhelp
    simp only [main, hstore, hhelp, hargs, buildTransforms_of_valid camera_args [] h,
      CameraTransformerNode.new_eq, ne_eq, not_true_eq_false, if_false]
    exact ⟨_, rfl, rfl⟩

/-- C6, counterexample: for the command line `--camera cam2/image --help --help`
the stream pair has one token, yet the process ends with code 0: `store`
throws on the second `help` before the token count is tested, and the handler
of `main` falls through to `return 0`. -/
theorem main_returns_zero_on_short_entry :
    (∃ a ∈ cameraArgs shortHelpOptions, a.length < 2) ∧
    (main sampleStore (.ok shortHelpOptions)).exitCode = some 0 ∧
    ¬ (∃ code, code ≠ 0 ∧ (main sampleStore (.ok shortHelpOptions)).exitCode = some code) := by
  refine ⟨⟨["cam2/image"], by decide, by decide⟩, by decide, ?_⟩
  rintro ⟨code, hne, hcode⟩
  have h0 : (main sampleStore (.ok shortHelpOptions)).exitCode = some 0 := by decide
  rw [h0] at hcode
  injection hcode with hcode
  exact hne hcode.symm

/-- C6, amended: when some stream-pair entry has fewer than 2 tokens, wherever it
stands, `main` creates no binding: nothing is advertised, nothing subscribed
and no node is constructed, also for the valid entries before the short one.
When `store` and `notify` throw nothing the process exits with code 1; when
they throw, it ends with code 0. -/
theorem main_exits_on_short_entry (store : Store) (options : List ParsedOption)
    (h : ∃ a ∈ cameraArgs options, a.length < 2) :
    (main store (.ok options)).world.advertised = [] ∧
    (main store (.ok options)).world.subscribed = [] ∧
    (main store (.ok options)).node = none ∧
    (main store (.ok options)).undefinedBehaviour = false ∧
    (∀ vm, store options = .ok vm → (main store (.ok options)).exitCode = some 1) ∧
    (∀ e, store options = .error e → (main store (.ok options)).exitCode = some 0) := by
  cases hstore : store options with
  | error e => simp [main, hstore, World.initial]
  | ok vm =>
    by_cases hhelp : vm "help" = 0
    · simp [main, hstore, hhelp, buildTransforms_of_short _ [] h, World.initial]
    · simp [main, hstore, hhelp, World.initial]

/-- C9, counterexample: the command line `--camera "" ""` is accepted (no exit,
the node is constructed), and its registry holds a mapping whose input name
and output name are both empty. -/
theorem buildTransforms_accepts_empty_names :
    (∃ ts, buildTransforms [["", ""]] [] = .ok ts ∧
      ¬ (∀ t ∈ ts, t.topic ≠ "" ∧ t.transformed_topic ≠ "")) ∧
    (main sampleStore (.ok [{ string_key := "camera", value := ["", ""] }])).exitCode = none ∧
    (main sampleStore (.ok [{ string_key := "camera", value := ["", ""] }])).node = some
      { _publishers := [{ topic := "", queue_size := 5 }]
        _subscribers := [{ topic := "", queue_size := 10, callback := 0 }]
        _subscriber_callbacks := [0]
        _transforms := [{ topic := "", transformed_topic := "" }] } := by
  refine ⟨⟨[{ topic := "", transformed_topic := "" }], rfl, by simp⟩, by decide, by decide⟩

/-- C9, amended: when start-up accepts the stream pairs and the first two tokens
of every entry are non-empty strings, every mapping of the registry has a
non-empty input name and a non-empty output name. -/
theorem buildTransforms_names_nonempty (camera_args : List (List String))
    (ts : List CameraTransform) (hok : buildTransforms camera_args [] = .ok ts)
    (hne : ∀ a ∈ camera_args, ∀ tok ∈ a.take 2, tok ≠ "") :
    ∀ t ∈ ts, t.topic ≠ "" ∧ t.transformed_topic ≠ "" := by
  have hvalid := valid_of_buildTransforms_ok camera_args [] ts hok
  rw [buildTransforms_of_valid camera_args [] hvalid] at hok
  injection hok with hts
  subst hts
  intro t ht
  simp only [List.nil_append, List.mem_map] at ht
  obtain ⟨a, ha, rfl⟩ := ht
  have hlen := hvalid a ha
  have hna := hne a ha
  match a, hlen, hna with
  | x :: y :: tail, _, hna =>
    exact ⟨by simpa using hna x (by simp), by simpa using hna y (by simp)⟩

/-! ## The theorems at concrete inputs -/

theorem sampleBridge_sampleMsg : sampleBridge sampleMsg BGR8 = .ok sampleBgr := by
  simp [sampleBridge, sampleMsg, BGR8, matFromImage, sampleBgr, List.range_succ, pixelsOfBytes]

theorem flip_both_axes_pixel_witness :
    sampleMat.WellFormed ∧
    ((flip sampleMat (-1)).rows = sampleMat.rows ∧
    (flip sampleMat (-1)).cols = sampleMat.cols ∧
    (flip sampleMat (-1)).channels = sampleMat.channels ∧
    (flip sampleMat (-1)).WellFormed ∧
    (∀ r c, r < sampleMat.rows → c < sampleMat.cols →
      ∃ p, sampleMat.at? (sampleMat.rows - 1 - r) (sampleMat.cols - 1 - c) = some p ∧
        (flip sampleMat (-1)).at? r c = some p) ∧
    (sampleMat.rows = 4 → sampleMat.cols = 4 →
      ∃ p q, sampleMat.at? 3 3 = some p ∧ sampleMat.at? 0 0 = some q ∧
        (flip sampleMat (-1)).at? 0 0 = some p ∧ (flip sampleMat (-1)).at? 3 3 = some q)) :=
  ⟨by decide, flip_both_axes_pixel sampleMat (by decide)⟩

theorem transform_image_reencodes_to_rgb_witness :
    (0 < sampleTransforms.length ∧ sampleBridge sampleMsg BGR8 = .ok sampleBgr ∧
      sampleBgr.WellFormed) ∧
    ∃ w' node topic out,
      CameraTransformerNode.new World.initial sampleTransforms = some (w', node) ∧
      transform_image sampleBridge node 0 sampleMsg
        = .returned [] [{ publisher := 0, topic := topic, msg := out }] ∧
      out.encoding = "rgb8" ∧ out.height = sampleBgr.rows ∧ out.width = sampleBgr.cols ∧
      ∀ r c, r < sampleBgr.rows → c < sampleBgr.cols →
        ∃ p, sampleBgr.at? (sampleBgr.rows - 1 - r) (sampleBgr.cols - 1 - c) = some p ∧
          out.pixel? r c = some { c0 := p.c2, c1 := p.c1, c2 := p.c0 } :=
  ⟨⟨by decide, sampleBridge_sampleMsg, by decide⟩,
    transform_image_reencodes_to_rgb sampleBridge World.initial sampleTransforms 0 sampleMsg
      sampleBgr (by decide) sampleBridge_sampleMsg (by decide)⟩

theorem fan_out_two_outputs_witness :
    ((∀ m ∈ ([] : List CameraTransform), m.topic ≠ "cam1/image") ∧
      (∀ m ∈ sampleTransforms2, m.topic ≠ "cam1/image") ∧
      (∀ m ∈ ([] : List CameraTransform), m.topic ≠ "cam1/image") ∧
      sampleBridge sampleMsg BGR8 = .ok sampleBgr ∧ sampleBgr.WellFormed) ∧
    ∃ w' node out,
      CameraTransformerNode.new World.initial
        ([] ++ { topic := "cam1/image", transformed_topic := "cam1/out_a" } ::
          (sampleTransforms2 ++ { topic := "cam1/image", transformed_topic := "cam1/out_b" } ::
            [])) = some (w', node) ∧
      deliver sampleBridge node "cam1/image" sampleMsg = .returned []
        [{ publisher := ([] : List CameraTransform).length, topic := "cam1/out_a", msg := out },
         { publisher := ([] : List CameraTransform).length + 1 + sampleTransforms2.length,
           topic := "cam1/out_b", msg := out }] ∧
      out.header.seq = sampleMsg.header.seq ∧
      out.header.stamp = sampleMsg.header.stamp ∧
      out.encoding = "rgb8" ∧ out.height = sampleBgr.rows ∧ out.width = sampleBgr.cols ∧
      ∀ r c, r < sampleBgr.rows → c < sampleBgr.cols →
        ∃ p, sampleBgr.at? (sampleBgr.rows - 1 - r) (sampleBgr.cols - 1 - c) = some p ∧
          out.pixel? r c = some { c0 := p.c2, c1 := p.c1, c2 := p.c0 } :=
  ⟨⟨by decide, by decide, by decide, sampleBridge_sampleMsg, by decide⟩,
    fan_out_two_outputs sampleBridge World.initial [] sampleTransforms2 [] "cam1/image"
      "cam1/out_a" "cam1/out_b" sampleMsg sampleBgr (by decide) (by decide) (by decide)
      sampleBridge_sampleMsg (by decide)⟩

theorem buildTransforms_registry_witness :
    (∀ a ∈ sampleCameraArgs, 2 ≤ a.length) ∧
    ∃ ts, buildTransforms sampleCameraArgs [] = .ok ts ∧
      ts.length = sampleCameraArgs.length ∧
      (∀ (k : Nat) (a : List String), sampleCameraArgs[k]? = some a →
        ∃ t : CameraTransform,
          ts[k]? = some t ∧ a[0]? = some t.topic ∧ a[1]? = some t.transformed_topic) ∧
      buildTransforms (sampleCameraArgs.map (List.take 2)) [] = .ok ts ∧
      ∀ (store : Store) (options : List ParsedOption) (vm : VariablesMap),
        cameraArgs options = sampleCameraArgs → store options = .ok vm → vm "help" = 0 →
        ∃ node, (main store (.ok options)).node = some node ∧ node._transforms = ts :=
  ⟨by decide, buildTransforms_registry sampleCameraArgs (by decide)⟩

theorem main_exits_on_short_entry_witness :
    (∃ a ∈ cameraArgs shortOptions, a.length < 2) ∧
    ((main sampleStore (.ok shortOptions)).world.advertised = [] ∧
    (main sampleStore (.ok shortOptions)).world.subscribed = [] ∧
    (main sampleStore (.ok shortOptions)).node = none ∧
    (main sampleStore (.ok shortOptions)).undefinedBehaviour = false ∧
    (∀ vm, sampleStore shortOptions = .ok vm →
      (main sampleStore (.ok shortOptions)).exitCode = some 1) ∧
    (∀ e, sampleStore shortOptions = .error e →
      (main sampleStore (.ok shortOptions)).exitCode = some 0)) ∧
    (main sampleStore (.ok shortOptions)).exitCode = some 1 :=
  ⟨⟨["cam2/image"], by decide, by decide⟩,
    main_exits_on_short_entry sampleStore shortOptions ⟨["cam2/image"], by decide, by decide⟩,
    (main_exits_on_short_entry sampleStore shortOptions
      ⟨["cam2/image"], by decide, by decide⟩).2.2.2.2.1 _ rfl⟩

theorem buildTransforms_names_nonempty_witness :
    (buildTransforms sampleCameraArgs [] = .ok
        [{ topic := "cam1/image", transformed_topic := "cam1/out_a" },
         { topic := "cam1/image", transformed_topic := "cam1/out_b" }] ∧
      ∀ a ∈ sampleCameraArgs, ∀ tok ∈ a.take 2, tok ≠ "") ∧
    ∀ t ∈ ([{ topic := "cam1/image", transformed_topic := "cam1/out_a" },
            { topic := "cam1/image", transformed_topic := "cam1/out_b" }] :
            List CameraTransform),
      t.topic ≠ "" ∧ t.transformed_topic ≠ "" :=
  ⟨⟨rfl, by decide⟩,
    buildTransforms_names_nonempty sampleCameraArgs _ rfl (by decide)⟩

end CameraTransformer
